import Mathlib

/-!
Shallow embedding of the rolling-window metrics aggregator and the
per-network polling driver of `rollup-tui` (src/block_metrics.rs and
src/block_streamer.rs).

Modelling conventions:
* `u64`/`usize`/`u128` values are `Nat`.  Rust's unchecked `u64`
  subtractions are modelled by `Nat` subtraction, which agrees with the
  source exactly on the inputs where the source's subtraction does not
  underflow; the places where the source can underflow are tracked by the
  explicit predicates `evict_underflows` (for `update`) and by the
  `u64_sub`-guarded branch of `get_next_batch` (where `none` marks the
  underflowing `latest_block_number - 10`).
* the `f64` rate arithmetic of `get_metrics` is modelled by exact
  rationals; the division-by-zero event (which in `f64` produces a
  non-zero infinity rather than the zero rate of the guarded branch) is
  tracked by the explicit predicate `get_metrics_div_by_zero`.
* `Utc::now().timestamp() as u64` is the explicit parameter `now`.
* the RPC endpoint of `get_next_batch` is the pair of an optional head
  number (`none` models a failed `get_block_number` call) and a function
  `ℕ → Option RpcBlock` (`none` models a failed or empty `get_block`
  response; `filter_map(Result::ok).flatten()` drops both).
-/

/-- WINDOW_SECONDS of src/block_metrics.rs. -/
def WINDOW_SECONDS : ℕ := 60

/-- BlockInfo of src/block_metrics.rs: the record retained in the window. -/
structure BlockInfo where
  bn : ℕ
  gas : ℕ
  size : Option ℕ
  timestamp : ℕ
  txs : ℕ
  deriving DecidableEq, Repr

/-- NetworkMetrics of src/types.rs, as produced by `get_metrics`; the three
`f64` rates are modelled as exact rationals. -/
structure NetworkMetrics where
  network : String
  block : ℕ
  gps : ℚ
  tps : ℚ
  dps : ℚ
  deriving DecidableEq

/-- BlockMetricsBuffer of src/block_metrics.rs: the deque is a list whose
head is the deque's front, the `HashSet<u64>` is a `Finset ℕ`. -/
structure BlockMetricsBuffer where
  network : String
  buffer : List BlockInfo
  seen : Finset ℕ
  total_txs : ℕ
  total_gas : ℕ
  total_data : ℕ
  deriving DecidableEq

namespace BlockMetricsBuffer

/-- BlockMetricsBuffer::new. -/
def new (network : String) : BlockMetricsBuffer :=
  { network := network, buffer := [], seen := ∅,
    total_txs := 0, total_gas := 0, total_data := 0 }

/-- Loop body of BlockMetricsBuffer::update: while the front block satisfies
`current_time - front.timestamp >= WINDOW_SECONDS`, pop it, subtract its
contributions from the running totals and remove its number from `seen`.
The state threaded through the loop is passed field by field so that the
recursion is structural in the buffer. -/
def evictLoop (now : ℕ) :
    List BlockInfo → Finset ℕ → ℕ → ℕ → ℕ →
    List BlockInfo × Finset ℕ × ℕ × ℕ × ℕ
  | [], seen, txs, gas, data => ([], seen, txs, gas, data)
  | b :: rest, seen, txs, gas, data =>
    if WINDOW_SECONDS ≤ now - b.timestamp then
      evictLoop now rest (seen.erase b.bn) (txs - b.txs) (gas - b.gas)
        (data - b.size.getD 0)
    else (b :: rest, seen, txs, gas, data)

/-- BlockMetricsBuffer::update at wall-clock time `now`. -/
def update (st : BlockMetricsBuffer) (now : ℕ) : BlockMetricsBuffer :=
  match evictLoop now st.buffer st.seen st.total_txs st.total_gas st.total_data with
  | (buf, seen, txs, gas, data) =>
    { network := st.network, buffer := buf, seen := seen,
      total_txs := txs, total_gas := gas, total_data := data }

/-- Marks the states on which the unchecked `u64` subtraction
`current_time - front_block.timestamp` inside BlockMetricsBuffer::update
underflows: the loop reaches a front block whose timestamp exceeds `now`
(there the `Nat` model and the Rust source part ways: debug builds panic,
release builds wrap around). -/
def evict_underflows (now : ℕ) : List BlockInfo → Bool
  | [] => false
  | b :: rest =>
    if now < b.timestamp then true
    else if WINDOW_SECONDS ≤ now - b.timestamp then evict_underflows now rest
    else false

/-- Underflow predicate of `update`, on the whole state. -/
def update_underflows (st : BlockMetricsBuffer) (now : ℕ) : Bool :=
  evict_underflows now st.buffer

/-- BlockMetricsBuffer::get_metrics at wall-clock time `now`: evict, then
match on (front, back) guarded by `last.timestamp > first.timestamp`;
`span = now - first.timestamp`; the fall-through arm is
`NetworkMetrics { network, ..Default::default() }`. -/
def get_metrics (st : BlockMetricsBuffer) (now : ℕ) : NetworkMetrics :=
  let st' := st.update now
  match st'.buffer.head?, st'.buffer.getLast? with
  | some first, some last =>
    if first.timestamp < last.timestamp then
      let span := now - first.timestamp
      { network := st'.network, block := last.bn,
        gps := (st'.total_gas : ℚ) / (span : ℚ),
        tps := (st'.total_txs : ℚ) / (span : ℚ),
        dps := (st'.total_data : ℚ) / (span : ℚ) }
    else { network := st'.network, block := 0, gps := 0, tps := 0, dps := 0 }
  | _, _ => { network := st'.network, block := 0, gps := 0, tps := 0, dps := 0 }

/-- Marks the states on which BlockMetricsBuffer::get_metrics reaches the
division with `span = 0`: the guard `last.timestamp > first.timestamp`
passes while `now - first.timestamp = 0` (in the `f64` source the rates
then become infinities, not the zero rates of the guarded arm). -/
def get_metrics_div_by_zero (st : BlockMetricsBuffer) (now : ℕ) : Bool :=
  let st' := st.update now
  match st'.buffer.head?, st'.buffer.getLast? with
  | some first, some last =>
    decide (first.timestamp < last.timestamp) && decide (now - first.timestamp = 0)
  | _, _ => false

/-- BlockMetricsBuffer::add_block_info at wall-clock time `now`: dedup
check against `seen` first (before any eviction), then evict, push the
record at the back, add its contributions and record its number. -/
def add_block_info (st : BlockMetricsBuffer) (now : ℕ) (block : BlockInfo) :
    BlockMetricsBuffer :=
  if block.bn ∈ st.seen then st
  else
    let st' := st.update now
    { network := st'.network, buffer := st'.buffer ++ [block],
      seen := insert block.bn st'.seen,
      total_txs := st'.total_txs + block.txs,
      total_gas := st'.total_gas + block.gas,
      total_data := st'.total_data + block.size.getD 0 }

end BlockMetricsBuffer

/-- Raw RPC block, restricted to the fields src/block_metrics.rs and
src/block_streamer.rs read: `header.number : Option u64`,
`header.gas_used : u128`, `size : Option U256` (of which the source keeps
the low 64-bit limb), `header.timestamp : u64`, `transactions.len()`. -/
structure RpcBlock where
  number : Option ℕ
  gas_used : ℕ
  size : Option ℕ
  timestamp : ℕ
  transactions_len : ℕ
  deriving DecidableEq, Repr

/-- BlockInfo::try_from_block: requires a present block number and
`gas_used < u64::MAX as u128` (that is, `gas_used < 2 ^ 64 - 1`);
`size.map(|s| s.as_limbs()[0])` keeps the low 64 bits of the size. -/
def BlockInfo.try_from_block (block : RpcBlock) : Option BlockInfo :=
  match block.number with
  | some bn =>
    if block.gas_used < 2 ^ 64 - 1 then
      some { bn := bn, gas := block.gas_used,
             size := block.size.map (· % 2 ^ 64),
             timestamp := block.timestamp, txs := block.transactions_len }
    else none
  | none => none

/-- BlockMetricsBuffer::add_block at wall-clock time `now`. -/
def BlockMetricsBuffer.add_block (st : BlockMetricsBuffer) (now : ℕ)
    (block : RpcBlock) : BlockMetricsBuffer :=
  match BlockInfo.try_from_block block with
  | some block_info => st.add_block_info now block_info
  | none => st

/-- Checked model of Rust's unchecked `u64` subtraction: `none` marks the
inputs on which the source's subtraction underflows. -/
def u64_sub (a b : ℕ) : Option ℕ :=
  if b ≤ a then some (a - b) else none

/-- Fetch range of BlockStreamer::get_next_batch once the head query
succeeded with `latest`:
`previous_block.unwrap_or_default().max(latest - 10) + 1 ..= latest`,
as the list of block numbers in ascending order. -/
def fetch_range (previous_block : Option ℕ) (latest : ℕ) : List ℕ :=
  let pb := max (previous_block.getD 0) (latest - 10)
  List.range' (pb + 1) (latest - pb)

/-- Sort key comparison of `blocks.sort_by_key(|block| block.header.number)`:
`Option<u64>` orders `None` before every `Some`. -/
def le_by_number (a b : RpcBlock) : Bool :=
  match a.number, b.number with
  | none, _ => true
  | some _, none => false
  | some x, some y => decide (x ≤ y)

/-- BlockStreamer::get_next_batch: on a failed head query return
`previous_block` unchanged; otherwise fetch the numbers of `fetch_range`,
drop failed fetches, sort the successes by block number and feed them to
`add_block`, returning `some latest` as the new cursor.  The outer `none`
marks the run in which `latest - 10` underflowed (`latest < 10`); in the
`some` branch `u64_sub latest 10 = some (latest - 10)`, so `fetch_range`
is exactly the source's range. -/
def BlockStreamer.get_next_batch (st : BlockMetricsBuffer) (now : ℕ)
    (previous_block : Option ℕ) (head_resp : Option ℕ)
    (block_resp : ℕ → Option RpcBlock) :
    Option (BlockMetricsBuffer × Option ℕ) :=
  match head_resp with
  | none => some (st, previous_block)
  | some latest =>
    match u64_sub latest 10 with
    | none => none
    | some _ =>
      let fetched := (fetch_range previous_block latest).filterMap block_resp
      let blocks := fetched.mergeSort le_by_number
      some (blocks.foldl (fun s b => s.add_block now b) st, some latest)

/-- Operations a driver performs on its own window, for the running-totals
invariant: every mutation of the window is an ingest (`add_block_info`) or
an eviction pass (`update`, run inside every ingest and snapshot). -/
inductive WindowOp where
  | ingest (now : ℕ) (block : BlockInfo)
  | evict (now : ℕ)

/-- Apply one operation to a window state. -/
def WindowOp.apply (st : BlockMetricsBuffer) : WindowOp → BlockMetricsBuffer
  | .ingest now block => st.add_block_info now block
  | .evict now => st.update now

/-- Run a sequence of operations from the empty window of a fresh driver. -/
def WindowOp.run (network : String) (ops : List WindowOp) : BlockMetricsBuffer :=
  ops.foldl WindowOp.apply (BlockMetricsBuffer.new network)

/-- Running-totals invariant: each total equals the sum of that field over
the records currently retained in the buffer (bytes summed over records
whose optional size is present, that is, over `size.getD 0`). -/
def TotalsInv (st : BlockMetricsBuffer) : Prop :=
  st.total_txs = (st.buffer.map (·.txs)).sum ∧
  st.total_gas = (st.buffer.map (·.gas)).sum ∧
  st.total_data = (st.buffer.map (fun b => b.size.getD 0)).sum

/-! ## Theorems -/

/-- C5: for every window state and every record whose block number is
already in the dedup set, ingesting that record is a no-op: the sequence,
the dedup set, and all three running totals are unchanged. -/
theorem c5_reingest_is_noop (st : BlockMetricsBuffer) (now : ℕ)
    (block : BlockInfo) (h : block.bn ∈ st.seen) :
    st.add_block_info now block = st := by
  simp [BlockMetricsBuffer.add_block_info, h]

/-- Witness for C5: re-ingesting the one retained record is a no-op. -/
theorem c5_reingest_is_noop_witness :
    BlockMetricsBuffer.add_block_info
        ⟨"base", [⟨1, 100, some 1000, 0, 2⟩], {1}, 2, 100, 1000⟩ 30
        ⟨1, 100, some 1000, 0, 2⟩ =
      ⟨"base", [⟨1, 100, some 1000, 0, 2⟩], {1}, 2, 100, 1000⟩ :=
  c5_reingest_is_noop ⟨"base", [⟨1, 100, some 1000, 0, 2⟩], {1}, 2, 100, 1000⟩
    30 ⟨1, 100, some 1000, 0, 2⟩ (by decide)

/-- C7: a fetched block that lacks a block number, or whose reported
gas-used value is outside the representable 64-bit range, is silently
dropped by ingestion: the whole state is unchanged by that block. -/
theorem c7_malformed_block_dropped (st : BlockMetricsBuffer) (now : ℕ)
    (block : RpcBlock)
    (h : block.number = none ∨ 2 ^ 64 ≤ block.gas_used) :
    st.add_block now block = st := by
  rcases h with h | h
  · simp [BlockMetricsBuffer.add_block, BlockInfo.try_from_block, h]
  · have hgas : ¬ block.gas_used < 18446744073709551615 := by omega
    cases hn : block.number <;>
      simp [BlockMetricsBuffer.add_block, BlockInfo.try_from_block, hn, hgas]

/-- Witness for C7: a block with no number leaves the fresh window alone. -/
theorem c7_malformed_block_dropped_witness :
    BlockMetricsBuffer.add_block (BlockMetricsBuffer.new "base") 0
        ⟨none, 5, none, 0, 3⟩ =
      BlockMetricsBuffer.new "base" :=
  c7_malformed_block_dropped (BlockMetricsBuffer.new "base") 0
    ⟨none, 5, none, 0, 3⟩ (Or.inl rfl)

/-- C8: when the head-number query fails, `get_next_batch` returns the
previous cursor unchanged, produces no error, and leaves the aggregator
state untouched. -/
theorem c8_head_failure_keeps_cursor (st : BlockMetricsBuffer) (now : ℕ)
    (previous_block : Option ℕ) (block_resp : ℕ → Option RpcBlock) :
    BlockStreamer.get_next_batch st now previous_block none block_resp =
      some (st, previous_block) := rfl

/-- C10: the unchecked subtraction `latest_block_number - 10` in
`get_next_batch` does not underflow exactly when the queried head number
is at least 10; for a head number below 10 it underflows. -/
theorem c10_catch_up_sub_underflow :
    (∀ (st : BlockMetricsBuffer) (now : ℕ) (previous_block : Option ℕ)
        (block_resp : ℕ → Option RpcBlock) (latest : ℕ), 10 ≤ latest →
      (BlockStreamer.get_next_batch st now previous_block (some latest)
          block_resp).isSome = true) ∧
    (∀ (st : BlockMetricsBuffer) (now : ℕ) (previous_block : Option ℕ)
        (block_resp : ℕ → Option RpcBlock) (latest : ℕ), latest < 10 →
      BlockStreamer.get_next_batch st now previous_block (some latest)
          block_resp = none) := by
  constructor
  · intro st now previous_block block_resp latest h
    simp [BlockStreamer.get_next_batch, u64_sub, h]
  · intro st now previous_block block_resp latest h
    have h10 : ¬ 10 ≤ latest := by omega
    simp [BlockStreamer.get_next_batch, u64_sub, h10]

/-- C6: once the head query succeeded with `latest ≥ 10`, the fetch range
is exactly the inclusive interval
`max(previousCursor, latest − 10) + 1 .. latest`, and the returned cursor
is always `some latest`, whatever the per-block fetches return. -/
theorem c6_fetch_range_and_cursor (previous_block : Option ℕ) (latest : ℕ)
    (h : 10 ≤ latest) :
    (∀ n : ℕ, n ∈ fetch_range previous_block latest ↔
      max (previous_block.getD 0) (latest - 10) + 1 ≤ n ∧ n ≤ latest) ∧
    (∀ (st : BlockMetricsBuffer) (now : ℕ)
        (block_resp : ℕ → Option RpcBlock),
      (BlockStreamer.get_next_batch st now previous_block (some latest)
          block_resp).map Prod.snd = some (some latest)) := by
  constructor
  · intro n
    simp only [fetch_range, List.mem_range'_1]
    omega
  · intro st now block_resp
    simp [BlockStreamer.get_next_batch, u64_sub, h]

/-- Witness for C6: with no previous cursor and head 1000 the range is
991..1000 (so 991 is fetched), and the returned cursor is 1000. -/
theorem c6_fetch_range_and_cursor_witness :
    (991 ∈ fetch_range none 1000 ↔
      max ((none : Option ℕ).getD 0) (1000 - 10) + 1 ≤ 991 ∧ 991 ≤ 1000) ∧
    (BlockStreamer.get_next_batch (BlockMetricsBuffer.new "base") 0 none
        (some 1000) (fun _ => none)).map Prod.snd = some (some 1000) :=
  ⟨(c6_fetch_range_and_cursor none 1000 (by norm_num)).1 991,
   (c6_fetch_range_and_cursor none 1000 (by norm_num)).2
     (BlockMetricsBuffer.new "base") 0 (fun _ => none)⟩

/-- Totals side of the eviction loop: subtracting each popped record's
contributions keeps every total equal to the sum over the remaining
records. -/
lemma evictLoop_totals (now : ℕ) (buf : List BlockInfo) :
    ∀ (seen : Finset ℕ) (txs gas data : ℕ),
    txs = (buf.map (·.txs)).sum →
    gas = (buf.map (·.gas)).sum →
    data = (buf.map (fun b => b.size.getD 0)).sum →
    match BlockMetricsBuffer.evictLoop now buf seen txs gas data with
    | (buf2, _, txs2, gas2, data2) =>
      txs2 = (buf2.map (·.txs)).sum ∧ gas2 = (buf2.map (·.gas)).sum ∧
      data2 = (buf2.map (fun b => b.size.getD 0)).sum := by
  induction buf with
  | nil =>
    intro seen txs gas data h1 h2 h3
    simpa [BlockMetricsBuffer.evictLoop] using ⟨h1, h2, h3⟩
  | cons b rest ih =>
    intro seen txs gas data h1 h2 h3
    simp only [BlockMetricsBuffer.evictLoop]
    split
    · exact ih (seen.erase b.bn) (txs - b.txs) (gas - b.gas)
        (data - b.size.getD 0)
        (by simp at h1; omega) (by simp at h2; omega) (by simp at h3; omega)
    · exact ⟨h1, h2, h3⟩

/-- BlockMetricsBuffer::update preserves the running-totals invariant. -/
lemma totalsInv_update (st : BlockMetricsBuffer) (now : ℕ)
    (h : TotalsInv st) : TotalsInv (st.update now) := by
  obtain ⟨h1, h2, h3⟩ := h
  have := evictLoop_totals now st.buffer st.seen st.total_txs st.total_gas
    st.total_data h1 h2 h3
  rcases heq : BlockMetricsBuffer.evictLoop now st.buffer st.seen st.total_txs
      st.total_gas st.total_data with ⟨buf2, seen2, txs2, gas2, data2⟩
  rw [heq] at this
  simp only [BlockMetricsBuffer.update, heq]
  exact this

/-- BlockMetricsBuffer::add_block_info preserves the running-totals
invariant: the dedup arm changes nothing, the other arm evicts and then
adds the new record to both sides of each equation. -/
lemma totalsInv_add_block_info (st : BlockMetricsBuffer) (now : ℕ)
    (block : BlockInfo) (h : TotalsInv st) :
    TotalsInv (st.add_block_info now block) := by
  unfold BlockMetricsBuffer.add_block_info
  split
  · exact h
  · obtain ⟨h1, h2, h3⟩ := totalsInv_update st now h
    refine ⟨?_, ?_, ?_⟩ <;> simp [TotalsInv, h1, h2, h3]

/-- C1: starting from the empty window, after every sequence of ingest and
evict operations each running total (gas, transactions, bytes) equals the
sum of that field over the records currently retained in the sequence
(bytes summed over the records whose optional size is present). -/
theorem c1_running_totals_invariant (network : String) (ops : List WindowOp) :
    TotalsInv (WindowOp.run network ops) := by
  have base : TotalsInv (BlockMetricsBuffer.new network) := by
    refine ⟨?_, ?_, ?_⟩ <;> simp [BlockMetricsBuffer.new]
  have step : ∀ (st : BlockMetricsBuffer), TotalsInv st →
      ∀ ops2 : List WindowOp, TotalsInv (ops2.foldl WindowOp.apply st) := by
    intro st hst ops2
    induction ops2 generalizing st with
    | nil => exact hst
    | cons op rest ih =>
      refine ih (WindowOp.apply st op) ?_
      cases op with
      | ingest now block => exact totalsInv_add_block_info st now block hst
      | evict now => exact totalsInv_update st now hst
  exact step (BlockMetricsBuffer.new network) base ops

/-- Eviction checks fronts one at a time, so when every record of the
buffer has a timestamp at most `now`, no checked front is in the future. -/
lemma evict_underflows_false (now : ℕ) (buf : List BlockInfo)
    (h : ∀ b ∈ buf, b.timestamp ≤ now) :
    BlockMetricsBuffer.evict_underflows now buf = false := by
  induction buf with
  | nil => rfl
  | cons b rest ih =>
    have hb : ¬ now < b.timestamp := by
      have := h b (List.mem_cons_self b rest)
      omega
    simp only [BlockMetricsBuffer.evict_underflows, if_neg hb]
    split
    · exact ih fun x hx => h x (List.mem_cons_of_mem b hx)
    · rfl

/-- C9: the unchecked `u64` subtraction `current_time - front.timestamp`
inside eviction (run by every ingest and snapshot) never underflows on a
window state all of whose retained records have timestamps at most the
current time; a retained record with a future timestamp can make it
underflow. -/
theorem c9_evict_sub_underflow :
    (∀ (st : BlockMetricsBuffer) (now : ℕ),
      (∀ b ∈ st.buffer, b.timestamp ≤ now) →
      st.update_underflows now = false) ∧
    (∃ (st : BlockMetricsBuffer) (now : ℕ) (b : BlockInfo),
      b ∈ st.buffer ∧ now < b.timestamp ∧
      st.update_underflows now = true) := by
  constructor
  · intro st now h
    exact evict_underflows_false now st.buffer h
  · exact ⟨⟨"base", [⟨1, 0, none, 100, 0⟩], {1}, 0, 0, 0⟩, 0,
      ⟨1, 0, none, 100, 0⟩, by decide, by decide, by decide⟩

/-- Characterisation of the eviction loop on a buffer whose timestamps are
non-decreasing from front to back: the loop pops exactly the records with
`now - timestamp ≥ WINDOW_SECONDS`, removes exactly their numbers from the
dedup set and subtracts exactly their summed contributions. -/
lemma evictLoop_eq_filter (now : ℕ) (buf : List BlockInfo)
    (hsorted : buf.Pairwise fun a b => a.timestamp ≤ b.timestamp) :
    ∀ (seen : Finset ℕ) (txs gas data : ℕ),
    BlockMetricsBuffer.evictLoop now buf seen txs gas data =
      (buf.filter (fun b => decide (now - b.timestamp < WINDOW_SECONDS)),
       seen \ ((buf.filter (fun b =>
         decide (WINDOW_SECONDS ≤ now - b.timestamp))).map (·.bn)).toFinset,
       txs - ((buf.filter (fun b =>
         decide (WINDOW_SECONDS ≤ now - b.timestamp))).map (·.txs)).sum,
       gas - ((buf.filter (fun b =>
         decide (WINDOW_SECONDS ≤ now - b.timestamp))).map (·.gas)).sum,
       data - ((buf.filter (fun b =>
         decide (WINDOW_SECONDS ≤ now - b.timestamp))).map
           (fun b => b.size.getD 0)).sum) := by
  induction buf with
  | nil => intro seen txs gas data; simp [BlockMetricsBuffer.evictLoop]
  | cons b rest ih =>
    intro seen txs gas data
    rcases List.pairwise_cons.mp hsorted with ⟨hb, hrest⟩
    by_cases hev : WINDOW_SECONDS ≤ now - b.timestamp
    · have hkeep : ¬ now - b.timestamp < WINDOW_SECONDS := by omega
      rw [BlockMetricsBuffer.evictLoop, if_pos hev,
        ih hrest (seen.erase b.bn) (txs - b.txs) (gas - b.gas)
          (data - b.size.getD 0)]
      simp only [List.filter_cons, decide_eq_true_eq, hkeep, if_false, hev,
        if_true, List.map_cons, List.toFinset_cons, Prod.mk.injEq,
        Nat.sub_sub]
      refine ⟨by trivial, ?_, by trivial, by trivial, by trivial⟩
      ext x
      simp only [Finset.mem_sdiff, Finset.mem_erase, Finset.mem_insert]
      tauto
    · rw [BlockMetricsBuffer.evictLoop, if_neg hev]
      have hkeepAll : ∀ x ∈ b :: rest,
          decide (now - x.timestamp < WINDOW_SECONDS) = true := by
        intro x hx
        rcases List.mem_cons.mp hx with hx | hx
        · subst hx; simp; omega
        · have hle : b.timestamp ≤ x.timestamp := hb x hx
          have := Nat.sub_le_sub_left hle now
          simp; omega
      have hevNone : ∀ x ∈ b :: rest,
          ¬ decide (WINDOW_SECONDS ≤ now - x.timestamp) = true := by
        intro x hx
        have := hkeepAll x hx
        simp at this ⊢
        omega
      rw [List.filter_eq_self.mpr hkeepAll, List.filter_eq_nil_iff.mpr hevNone]
      simp

/-- C3 as amended: on a window whose retained records have non-decreasing
timestamps from oldest to newest, none in the future of `now`, eviction
removes exactly the records with `now - timestamp ≥ 60` and no others,
removes exactly their numbers from the dedup set and subtracts exactly
their summed contributions from the three running totals. -/
theorem c3_evict_exactly_expired (st : BlockMetricsBuffer) (now : ℕ)
    (hsorted : st.buffer.Pairwise fun a b => a.timestamp ≤ b.timestamp)
    (_hts : ∀ b ∈ st.buffer, b.timestamp ≤ now) :
    (st.update now).buffer =
      st.buffer.filter (fun b => decide (now - b.timestamp < WINDOW_SECONDS)) ∧
    (st.update now).seen =
      st.seen \ ((st.buffer.filter (fun b =>
        decide (WINDOW_SECONDS ≤ now - b.timestamp))).map (·.bn)).toFinset ∧
    (st.update now).total_txs =
      st.total_txs - ((st.buffer.filter (fun b =>
        decide (WINDOW_SECONDS ≤ now - b.timestamp))).map (·.txs)).sum ∧
    (st.update now).total_gas =
      st.total_gas - ((st.buffer.filter (fun b =>
        decide (WINDOW_SECONDS ≤ now - b.timestamp))).map (·.gas)).sum ∧
    (st.update now).total_data =
      st.total_data - ((st.buffer.filter (fun b =>
        decide (WINDOW_SECONDS ≤ now - b.timestamp))).map
          (fun b => b.size.getD 0)).sum := by
  have h := evictLoop_eq_filter now st.buffer hsorted st.seen st.total_txs
    st.total_gas st.total_data
  simp only [BlockMetricsBuffer.update, h]
  exact ⟨by trivial, by trivial, by trivial, by trivial, by trivial⟩

/-- Witness for C3: the spec's scenario B. At `now = 65` the record with
timestamp 0 is evicted and the record with timestamp 10 is retained. -/
theorem c3_evict_exactly_expired_witness :
    (BlockMetricsBuffer.update
        ⟨"base", [⟨1, 100, some 1000, 0, 2⟩, ⟨2, 200, some 2000, 10, 3⟩],
         {1, 2}, 5, 300, 3000⟩ 65).buffer =
      ([⟨1, 100, some 1000, 0, 2⟩, ⟨2, 200, some 2000, 10, 3⟩] :
          List BlockInfo).filter
        (fun b => decide (65 - b.timestamp < WINDOW_SECONDS)) :=
  (c3_evict_exactly_expired
    ⟨"base", [⟨1, 100, some 1000, 0, 2⟩, ⟨2, 200, some 2000, 10, 3⟩],
     {1, 2}, 5, 300, 3000⟩ 65 (by decide) (by decide)).1

/-- Counterexample for C3 as stated: eviction stops at the first fresh
front, so a stale record sitting behind a fresh one survives.  With the
buffer `[timestamp 100, timestamp 0]` and `now = 110`, nothing is evicted
even though the second record satisfies `now - timestamp ≥ 60`. -/
theorem c3_counterexample :
    (BlockMetricsBuffer.update
        ⟨"base", [⟨1, 0, none, 100, 0⟩, ⟨2, 0, none, 0, 0⟩],
         {1, 2}, 0, 0, 0⟩ 110).buffer ≠
      ([⟨1, 0, none, 100, 0⟩, ⟨2, 0, none, 0, 0⟩] : List BlockInfo).filter
        (fun b => decide (110 - b.timestamp < WINDOW_SECONDS)) := by
  decide

/-- Records surviving the eviction loop all come from the original buffer. -/
lemma evictLoop_buffer_mem (now : ℕ) (buf : List BlockInfo) :
    ∀ (seen : Finset ℕ) (txs gas data : ℕ) (x : BlockInfo),
    x ∈ (BlockMetricsBuffer.evictLoop now buf seen txs gas data).1 →
    x ∈ buf := by
  induction buf with
  | nil => intro _ _ _ _ x hx; simp [BlockMetricsBuffer.evictLoop] at hx
  | cons b rest ih =>
    intro seen txs gas data x hx
    rw [BlockMetricsBuffer.evictLoop] at hx
    by_cases hev : WINDOW_SECONDS ≤ now - b.timestamp
    · rw [if_pos hev] at hx
      exact List.mem_cons_of_mem b (ih _ _ _ _ x hx)
    · rw [if_neg hev] at hx
      exact hx

/-- Records retained after BlockMetricsBuffer::update were already
retained before it. -/
lemma update_buffer_subset (st : BlockMetricsBuffer) (now : ℕ) :
    ∀ x ∈ (st.update now).buffer, x ∈ st.buffer := by
  intro x hx
  have h2 := evictLoop_buffer_mem now st.buffer st.seen st.total_txs
    st.total_gas st.total_data x
  rcases heq : BlockMetricsBuffer.evictLoop now st.buffer st.seen st.total_txs
      st.total_gas st.total_data with ⟨buf2, s2, t2, g2, d2⟩
  rw [heq] at h2
  apply h2
  simp only [BlockMetricsBuffer.update, heq] at hx
  exact hx

/-- C4 as amended: on a window state whose retained records all have
timestamps at most `now`, the snapshot never reaches the division with a
zero divisor, and it returns all-zero rates both when the sequence is
empty after eviction and when the divisor `now - head.timestamp` would be
zero. -/
theorem c4_snapshot_never_divides_by_zero (st : BlockMetricsBuffer)
    (now : ℕ) (hts : ∀ b ∈ st.buffer, b.timestamp ≤ now) :
    st.get_metrics_div_by_zero now = false ∧
    ((st.update now).buffer = [] →
      (st.get_metrics now).gps = 0 ∧ (st.get_metrics now).tps = 0 ∧
      (st.get_metrics now).dps = 0) ∧
    (∀ first, (st.update now).buffer.head? = some first →
      now - first.timestamp = 0 →
      (st.get_metrics now).gps = 0 ∧ (st.get_metrics now).tps = 0 ∧
      (st.get_metrics now).dps = 0) := by
  have hsub := update_buffer_subset st now
  refine ⟨?_, ?_, ?_⟩
  · unfold BlockMetricsBuffer.get_metrics_div_by_zero
    cases hf : (st.update now).buffer.head? with
    | none => simp [hf]
    | some first =>
      cases hl : (st.update now).buffer.getLast? with
      | none => simp [hf, hl]
      | some last =>
        have hfm : first.timestamp ≤ now :=
          hts first (hsub first (List.mem_of_mem_head? (Option.mem_def.mpr hf)))
        have hlm : last.timestamp ≤ now :=
          hts last (hsub last (List.mem_of_mem_getLast? (Option.mem_def.mpr hl)))
        simp only [hf, hl]
        by_cases hz : now - first.timestamp = 0
        · have hguard : ¬ first.timestamp < last.timestamp := by omega
          simp [hguard]
        · simp [hz]
  · intro hempty
    simp [BlockMetricsBuffer.get_metrics, hempty]
  · intro first hf hz
    cases hl : (st.update now).buffer.getLast? with
    | none => simp [BlockMetricsBuffer.get_metrics, hf, hl]
    | some last =>
      have hfm : first.timestamp ≤ now :=
        hts first (hsub first (List.mem_of_mem_head? (Option.mem_def.mpr hf)))
      have hlm : last.timestamp ≤ now :=
        hts last (hsub last (List.mem_of_mem_getLast? (Option.mem_def.mpr hl)))
      have hguard : ¬ first.timestamp < last.timestamp := by omega
      simp [BlockMetricsBuffer.get_metrics, hf, hl, hguard]

/-- Witness for C4: a window holding a single minute-old record at
`now = 30` (hypothesis discharged concretely) never divides by zero. -/
theorem c4_snapshot_never_divides_by_zero_witness :
    BlockMetricsBuffer.get_metrics_div_by_zero
      ⟨"base", [⟨1, 100, some 1000, 0, 2⟩], {1}, 2, 100, 1000⟩ 30 = false :=
  (c4_snapshot_never_divides_by_zero
    ⟨"base", [⟨1, 100, some 1000, 0, 2⟩], {1}, 2, 100, 1000⟩ 30 (by decide)).1

/-- Counterexample for C4 as stated: with retained records at timestamps
30 and 40 (the newer one in the future of `now = 30`), the guard
`last.timestamp > first.timestamp` passes while the divisor
`now - first.timestamp` is zero, so the snapshot divides by zero. -/
theorem c4_counterexample :
    BlockMetricsBuffer.get_metrics_div_by_zero
      ⟨"base", [⟨1, 100, none, 30, 2⟩, ⟨2, 200, none, 40, 3⟩],
       {1, 2}, 5, 300, 0⟩ 30 = true := by decide

/-- Eviction leaves the state untouched while the oldest retained record
is younger than the window length. -/
lemma update_eq_self_of_fresh_front (st : BlockMetricsBuffer) (now : ℕ)
    (first : BlockInfo) (hf : st.buffer.head? = some first)
    (hfresh : now < first.timestamp + WINDOW_SECONDS) :
    st.update now = st := by
  rcases st with ⟨net, buf, seen, txs, gas, data⟩
  cases buf with
  | nil => simp at hf
  | cons b rest =>
    simp only [List.head?_cons, Option.some.injEq] at hf
    subst hf
    have hev : ¬ WINDOW_SECONDS ≤ now - b.timestamp := by
      simp only [WINDOW_SECONDS] at hfresh ⊢
      omega
    simp [BlockMetricsBuffer.update, BlockMetricsBuffer.evictLoop, hev]

/-- Closed form of the snapshot on an eviction-stable window whose oldest
and newest records have distinct timestamps. -/
lemma get_metrics_formula (st : BlockMetricsBuffer) (now : ℕ)
    (first last : BlockInfo) (hupd : st.update now = st)
    (hf : st.buffer.head? = some first) (hl : st.buffer.getLast? = some last)
    (hts : first.timestamp < last.timestamp) :
    st.get_metrics now =
      { network := st.network, block := last.bn,
        gps := (st.total_gas : ℚ) / ((now - first.timestamp : ℕ) : ℚ),
        tps := (st.total_txs : ℚ) / ((now - first.timestamp : ℕ) : ℚ),
        dps := (st.total_data : ℚ) / ((now - first.timestamp : ℕ) : ℚ) } := by
  unfold BlockMetricsBuffer.get_metrics
  rw [hupd]
  simp [hf, hl, hts]

/-- C2 as amended: whenever the oldest and newest retained records have
distinct timestamps (the source's guard), no eviction strikes, and the
elapsed divisor `now - head.timestamp` is positive, each rate equals the
running total divided by that divisor — the gap between `now` and the
oldest retained record — and the rates decrease as `now` increases while
no new blocks arrive. -/
theorem c2_decaying_divisor (st : BlockMetricsBuffer)
    (first last : BlockInfo) (now now2 : ℕ)
    (hf : st.buffer.head? = some first) (hl : st.buffer.getLast? = some last)
    (hts : first.timestamp < last.timestamp)
    (hpos : first.timestamp < now) (hmono : now ≤ now2)
    (hfresh : now2 < first.timestamp + WINDOW_SECONDS) :
    (st.get_metrics now).gps =
      (st.total_gas : ℚ) / ((now - first.timestamp : ℕ) : ℚ) ∧
    (st.get_metrics now).tps =
      (st.total_txs : ℚ) / ((now - first.timestamp : ℕ) : ℚ) ∧
    (st.get_metrics now).dps =
      (st.total_data : ℚ) / ((now - first.timestamp : ℕ) : ℚ) ∧
    (st.get_metrics now2).gps ≤ (st.get_metrics now).gps ∧
    (st.get_metrics now2).tps ≤ (st.get_metrics now).tps ∧
    (st.get_metrics now2).dps ≤ (st.get_metrics now).dps := by
  have hupd : st.update now = st :=
    update_eq_self_of_fresh_front st now first hf (by omega)
  have hupd2 : st.update now2 = st :=
    update_eq_self_of_fresh_front st now2 first hf hfresh
  rw [get_metrics_formula st now first last hupd hf hl hts,
    get_metrics_formula st now2 first last hupd2 hf hl hts]
  have h0 : (0 : ℚ) < ((now - first.timestamp : ℕ) : ℚ) := by
    have h : 0 < now - first.timestamp := by omega
    exact_mod_cast h
  have hle : ((now - first.timestamp : ℕ) : ℚ) ≤
      ((now2 - first.timestamp : ℕ) : ℚ) := by
    have h : now - first.timestamp ≤ now2 - first.timestamp := by omega
    exact_mod_cast h
  exact ⟨rfl, rfl, rfl,
    div_le_div_of_nonneg_left (Nat.cast_nonneg _) h0 hle,
    div_le_div_of_nonneg_left (Nat.cast_nonneg _) h0 hle,
    div_le_div_of_nonneg_left (Nat.cast_nonneg _) h0 hle⟩

/-- Two-record window of the spec's scenario A, used to witness C2. -/
def c2_two_record_state : BlockMetricsBuffer :=
  ⟨"base", [⟨1, 100, some 1000, 0, 2⟩, ⟨2, 200, some 2000, 10, 3⟩],
   {1, 2}, 5, 300, 3000⟩

/-- Witness for C2 as amended: on the two-record window the rate at
`now = 30` is the total divided by 30, and the rate at `now = 40` has
decayed below it. -/
theorem c2_decaying_divisor_witness :
    (BlockMetricsBuffer.get_metrics c2_two_record_state 30).gps =
      ((300 : ℕ) : ℚ) / (((30 - 0 : ℕ)) : ℚ) ∧
    (BlockMetricsBuffer.get_metrics c2_two_record_state 40).gps ≤
      (BlockMetricsBuffer.get_metrics c2_two_record_state 30).gps :=
  ⟨(c2_decaying_divisor c2_two_record_state ⟨1, 100, some 1000, 0, 2⟩
      ⟨2, 200, some 2000, 10, 3⟩ 30 40 rfl rfl (by decide) (by decide)
      (by decide) (by decide)).1,
   (c2_decaying_divisor c2_two_record_state ⟨1, 100, some 1000, 0, 2⟩
      ⟨2, 200, some 2000, 10, 3⟩ 30 40 rfl rfl (by decide) (by decide)
      (by decide) (by decide)).2.2.2.1⟩

/-- Counterexample for C2 as stated: a window holding a single record with
timestamp 0 reports zero rates at `now = 30`, not `total / 30`: the
source's guard `last.timestamp > first.timestamp` fails when the window
holds one record, so the decaying divisor is never reached. -/
theorem c2_counterexample :
    (BlockMetricsBuffer.get_metrics
        ⟨"base", [⟨1, 100, some 1000, 0, 2⟩], {1}, 2, 100, 1000⟩ 30).gps = 0 ∧
    ¬ (BlockMetricsBuffer.get_metrics
        ⟨"base", [⟨1, 100, some 1000, 0, 2⟩], {1}, 2, 100, 1000⟩ 30).gps =
      (100 : ℚ) / 30 := by
  have h : (BlockMetricsBuffer.get_metrics
      ⟨"base", [⟨1, 100, some 1000, 0, 2⟩], {1}, 2, 100, 1000⟩ 30).gps = 0 := rfl
  refine ⟨h, ?_⟩
  rw [h]
  norm_num
